import Mathlib

/-
Verification of the process graph model, diagram projector and document
codec of app.py (a Streamlit flowchart builder).

Conventions of the shallow embedding:
  * Python dicts for nodes/edges/processes become Lean structures with the
    same field names where Lean allows it (the Python keys "from"/"to" of
    an edge become fromId/toId because from is a Lean keyword; the key
    "type" keeps its name).
  * uuid.uuid4().hex[:8] draws are non-deterministic; each operation that
    generates an id takes the draw as an explicit String argument, and
    generate_id builds the id from it exactly as the source does.
  * In-place mutation becomes a function returning the new Process.
  * The JSON text layer (json.dumps / json.load) is the Python standard
    library, external to this repository; it is modelled at the level of
    the JSON value tree (dicts / lists / strings / numbers / null), which
    is what the application code actually inspects and adopts.
-/

set_option autoImplicit false

namespace Processos

/-- A node of the process graph: dict with keys id, label, type in app.py. -/
structure Node where
  id : String
  label : String
  type : String
deriving Repr, DecidableEq

/-- An edge of the process graph: dict with keys from, to, label in app.py.
The Python label value None (and an absent key, read back via e.get) is
modelled as none; a present string label as some. -/
structure Edge where
  fromId : String
  toId : String
  label : Option String
deriving Repr, DecidableEq

/-- The aggregate process: dict with keys id, name, nodes, edges in app.py. -/
structure Process where
  id : String
  name : String
  nodes : List Node
  edges : List Edge
deriving Repr, DecidableEq

/-- generate_id of app.py; the uuid hex draw is passed in as draw. -/
def generate_id (pre : String) (draw : String) : String :=
  pre ++ "_" ++ draw

/-- init_process of app.py: one start node, no edges. -/
def init_process (draw : String) : Process :=
  { id := generate_id "proc" draw
    name := "Novo Processo"
    nodes := [{ id := "start", label := "Início", type := "start" }]
    edges := [] }

/-- find_node of app.py: first node with the given id, else None. -/
def find_node (process : Process) (node_id : String) : Option Node :=
  process.nodes.find? (fun n => n.id == node_id)

/-- The enumerate loop of get_node_index, recursed over the node list:
index of the first node with the given id. -/
def node_index_from : List Node → String → Option Nat
  | [], _ => none
  | n :: rest, node_id =>
      if n.id == node_id then some 0
      else Option.map (fun i => i + 1) (node_index_from rest node_id)

/-- get_node_index of app.py. -/
def get_node_index (process : Process) (node_id : String) : Option Nat :=
  node_index_from process.nodes node_id

/-- add_node of app.py: appends a node with a freshly generated id and
returns the id; the uuid draw is the last argument. -/
def add_node (process : Process) (label : String) (ntype : String)
    (draw : String) : Process × String :=
  let nid := generate_id "n" draw
  ({ process with nodes := process.nodes ++ [{ id := nid, label := label, type := ntype }] },
   nid)

/-- add_edge of app.py: unconditionally appends the edge dict. -/
def add_edge (process : Process) (from_id : String) (to_id : String)
    (label : Option String) : Process :=
  { process with edges := process.edges ++ [{ fromId := from_id, toId := to_id, label := label }] }

/-- delete_nodes_after of app.py: keep nodes up to the anchor index
inclusive, drop the rest, and drop every edge referencing a dropped id.
When the anchor id is absent the function returns with no change. -/
def delete_nodes_after (process : Process) (node_id : String) : Process :=
  match get_node_index process node_id with
  | none => process
  | some idx =>
      let keep := process.nodes.take (idx + 1)
      let removed := process.nodes.drop (idx + 1)
      let removed_ids := removed.map Node.id
      { process with
        nodes := keep
        edges := process.edges.filter
          (fun e => !(removed_ids.contains e.fromId) && !(removed_ids.contains e.toId)) }

/-- remove_node of app.py: drop every node with this id and every edge
touching it; no start-node check at this layer. -/
def remove_node (process : Process) (node_id : String) : Process :=
  { process with
    nodes := process.nodes.filter (fun n => n.id != node_id)
    edges := process.edges.filter (fun e => e.fromId != node_id && e.toId != node_id) }

/-- The filter predicate of the end_nodes list in ensure_end_node. -/
def is_end (n : Node) : Bool :=
  n.type == "end"

/-- ensure_end_node of app.py. The uuid draw used when add_node has to be
called (the id "end" already taken by a non-end node) is passed as draw. -/
def ensure_end_node (process : Process) (draw : String) : Process × String :=
  match process.nodes.filter is_end with
  | n :: _ => (process, n.id)
  | [] =>
      let end_id := "end"
      match find_node process end_id with
      | some _ => add_node process "Fim" "end" draw
      | none =>
          ({ process with nodes := process.nodes ++ [{ id := end_id, label := "Fim", type := "end" }] },
           end_id)

/-- The Deletar button handler of app.py: refuses to delete a node whose
type is start (the returned flag records that the error message was shown),
otherwise calls remove_node. -/
def deletar_handler (process : Process) (node : Node) : Process × Bool :=
  if node.type == "start" then (process, true)
  else (remove_node process node.id, false)

/-- The label sanitation safe_label of generate_mermaid, the Python
expression label.replace of the newline by a space: since the pattern is
the single newline character, the replacement is exactly a
character-by-character map. -/
def replace_newlines (s : String) : String :=
  String.mk (s.data.map (fun c => if c = '\n' then ' ' else c))

/-- One node line of generate_mermaid in app.py: the label has each
newline replaced by a space, then the shape wrapper is chosen by the
if/elif chain on the type field (start or end rounded, task rectangular,
decision rhombus, anything else rectangular). -/
def node_line (n : Node) : String :=
  let safe_label := replace_newlines n.label
  if n.type == "start" || n.type == "end" then
    "    " ++ n.id ++ "([" ++ safe_label ++ "])"
  else if n.type == "task" then
    "    " ++ n.id ++ "[" ++ safe_label ++ "]"
  else if n.type == "decision" then
    "    " ++ n.id ++ "\x7b" ++ safe_label ++ "\x7d"
  else
    "    " ++ n.id ++ "[" ++ safe_label ++ "]"

/-- Python truthiness of e.get("label"): an absent key or None or the
empty string is falsy, any other string is truthy. -/
def label_truthy : Option String → Bool
  | some l => l != ""
  | none => false

/-- One edge line of generate_mermaid in app.py: the labeled arrow form
when e.get("label") is truthy, the plain arrow otherwise. -/
def edge_line (e : Edge) : String :=
  if label_truthy e.label then
    "    " ++ e.fromId ++ " -->|" ++ e.label.getD "" ++ "| " ++ e.toId
  else
    "    " ++ e.fromId ++ " --> " ++ e.toId

/-- generate_mermaid of app.py: the flowchart directive line, then one
line per node and one line per edge, in list order, joined by newlines. -/
def generate_mermaid (process : Process) : String :=
  let lines := "flowchart TD" :: (process.nodes.map node_line ++ process.edges.map edge_line)
  String.intercalate "\n" lines

/-
Document codec. json.dumps / json.load operate on JSON value trees; the
tree type below models the Python values the application passes to and
receives from the json library (numbers are irrelevant to the claims and
carried as Int).
-/

/-- A JSON document value as handed to or received from the json library. -/
inductive Json where
  | null : Json
  | bool : Bool → Json
  | num : Int → Json
  | str : String → Json
  | arr : List Json → Json
  | obj : List (String × Json) → Json
deriving Repr

/-- Encoding of a node dict, key order as in add_node / init_process. -/
def node_to_json (n : Node) : Json :=
  Json.obj [("id", Json.str n.id), ("label", Json.str n.label), ("type", Json.str n.type)]

/-- Encoding of an edge dict, key order as in add_edge; a None label
serializes to null. -/
def edge_to_json (e : Edge) : Json :=
  Json.obj [("from", Json.str e.fromId), ("to", Json.str e.toId),
            ("label", match e.label with | some l => Json.str l | none => Json.null)]

/-- serialize: the JSON value json.dumps(process) writes, keys in the
insertion order of init_process. -/
def serialize (p : Process) : Json :=
  Json.obj [("id", Json.str p.id), ("name", Json.str p.name),
            ("nodes", Json.arr (p.nodes.map node_to_json)),
            ("edges", Json.arr (p.edges.map edge_to_json))]

/-- Decoding of one node dict the way the application reads it back
(string values at keys id, label, type). -/
def json_to_node : Json → Option Node
  | Json.obj kvs =>
      match kvs.lookup "id", kvs.lookup "label", kvs.lookup "type" with
      | some (Json.str i), some (Json.str l), some (Json.str t) =>
          some { id := i, label := l, type := t }
      | _, _, _ => none
  | _ => none

/-- Decoding of one edge dict the way the application reads it back:
from and to are strings, the label is a string when present and truthy
material, anything else (null, absent) reads back as none. -/
def json_to_edge : Json → Option Edge
  | Json.obj kvs =>
      match kvs.lookup "from", kvs.lookup "to" with
      | some (Json.str f), some (Json.str t) =>
          some { fromId := f, toId := t
                 label := match kvs.lookup "label" with
                          | some (Json.str l) => some l
                          | _ => none }
      | _, _ => none
  | _ => none

/-- Elementwise decoding of a JSON array, failing when any element fails. -/
def decode_list {α : Type} (f : Json → Option α) : List Json → Option (List α)
  | [] => some []
  | x :: xs =>
      match f x, decode_list f xs with
      | some a, some rest => some (a :: rest)
      | _, _ => none

/-- Reading a whole uploaded document back into the Process shape, field
access mirroring how the application dereferences process[...] keys. -/
def parse_process : Json → Option Process
  | Json.obj kvs =>
      match kvs.lookup "id", kvs.lookup "name", kvs.lookup "nodes", kvs.lookup "edges" with
      | some (Json.str i), some (Json.str nm), some (Json.arr ns), some (Json.arr es) =>
          match decode_list json_to_node ns, decode_list json_to_edge es with
          | some ns2, some es2 => some { id := i, name := nm, nodes := ns2, edges := es2 }
          | _, _ => none
      | _, _, _, _ => none
  | _ => none

/-- Python equality of a string against a JSON value (list membership in
the upload check compares the string "nodes" with each element). -/
def json_is_str (s : String) : Json → Bool
  | Json.str t => t == s
  | _ => false

/-- Python substring membership: pat in s for strings. -/
def str_contains_sub (s pat : String) : Bool :=
  (s.splitOn pat).length ≥ 2

/-- The Python expression key in content, for each JSON value shape:
key lookup for a dict, element equality for a list, substring test for a
string, and a TypeError (the error case) for null, booleans and numbers. -/
def json_has_member (key : String) : Json → Except Unit Bool
  | Json.obj kvs => Except.ok (kvs.any (fun kv => kv.fst == key))
  | Json.arr xs => Except.ok (xs.any (json_is_str key))
  | Json.str s => Except.ok (str_contains_sub s key)
  | _ => Except.error ()

/-- The upload schema check of app.py: "nodes" in content and "edges" in
content, with Python short-circuit evaluation. -/
def py_schema_check (content : Json) : Except Unit Bool :=
  match json_has_member "nodes" content with
  | Except.error e => Except.error e
  | Except.ok b =>
      if b then json_has_member "edges" content else Except.ok false

/-- Outcomes of the Carregar processo upload handler in app.py. -/
inductive LoadError where
  | invalidJson
  | readError
deriving Repr, DecidableEq

/-- The Carregar processo handler of app.py, after json.load produced the
value content: on a passing check the session process is replaced by the
uploaded value as-is; on a failing check st.error is shown (invalidJson)
and on an exception, such as the TypeError raised by the membership test
on a number, the except branch reports readError; in both failure cases
the session process keeps its current value. -/
def apply_upload (current : Json) (content : Json) : Json × Option LoadError :=
  match py_schema_check content with
  | Except.error _ => (current, some LoadError.readError)
  | Except.ok true => (content, none)
  | Except.ok false => (current, some LoadError.invalidJson)

/-
Specification-side rendering rules, written from the wording of the
diagram projector section of the specification, to be compared with the
generate_mermaid translation above.
-/

/-- Node rendering rule as the specification words it: a table keyed by
kind, start and end rounded, task rectangular, decision rhombus, and any
other kind falling back to rectangular, the label newline-sanitised. -/
def spec_node_line (n : Node) : String :=
  let lbl := replace_newlines n.label
  if n.type = "start" ∨ n.type = "end" then "    " ++ n.id ++ "([" ++ lbl ++ "])"
  else if n.type = "task" then "    " ++ n.id ++ "[" ++ lbl ++ "]"
  else if n.type = "decision" then "    " ++ n.id ++ "\x7b" ++ lbl ++ "\x7d"
  else "    " ++ n.id ++ "[" ++ lbl ++ "]"

/-- Edge rendering rule as the specification words it: plain arrow when
unlabeled (no label value, or an empty one), labeled arrow otherwise. -/
def spec_edge_line (e : Edge) : String :=
  match e.label with
  | some l =>
      if l = "" then "    " ++ e.fromId ++ " --> " ++ e.toId
      else "    " ++ e.fromId ++ " -->|" ++ l ++ "| " ++ e.toId
  | none => "    " ++ e.fromId ++ " --> " ++ e.toId

/-
Concrete processes used to instantiate theorems with hypotheses on
explicit inputs.
-/

/-- A three-step process used to instantiate the truncation theorem. -/
def pW3 : Process :=
  { id := "p"
    name := "N"
    nodes := [{ id := "start", label := "Início", type := "start" },
              { id := "a", label := "A", type := "task" },
              { id := "b", label := "B", type := "task" }]
    edges := [{ fromId := "start", toId := "a", label := none },
              { fromId := "a", toId := "b", label := some "Sim" },
              { fromId := "start", toId := "b", label := none }] }

/-- A process that already holds an end node, used to instantiate the
ensure_end_node theorems. -/
def pE : Process :=
  { id := "p"
    name := "N"
    nodes := [{ id := "start", label := "Início", type := "start" },
              { id := "e1", label := "Fim", type := "end" }]
    edges := [] }

/-
Claim C1. The claim asserts that remove_node called on the start node
fails with InvariantViolation and leaves the process unchanged, at the
graph-model layer itself. The model-layer remove_node of app.py performs
no such check: it removes the start node of a fresh process.
-/

/-- Claim C1 is false as stated: at the graph-model layer, remove_node
applied to the start node of a freshly initialised process removes it,
dropping the node count from one to zero instead of leaving the process
unchanged, and no error is raised at this layer. -/
theorem claim_C1_counterexample :
    (remove_node (init_process "draw0") "start").nodes.length = 0
    ∧ (init_process "draw0").nodes.length = 1 := by
  decide

/-- Claim C1 as amended: the protection of the start node lives in the
caller, not in the graph-model layer. The Deletar button handler refuses
a node whose type is start, showing the error and leaving the process
unchanged, and only for other nodes invokes the unchecked model-layer
remove_node. -/
theorem claim_C1_start_protected_at_caller (p : Process) (n : Node) :
    (n.type = "start" → deletar_handler p n = (p, true))
    ∧ (n.type ≠ "start" → deletar_handler p n = (remove_node p n.id, false)) := by
  constructor
  · intro h
    simp [deletar_handler, h]
  · intro h
    simp [deletar_handler, h]

/-- Witness for the amended claim C1, on the start node of a fresh
process. -/
theorem claim_C1_witness :
    deletar_handler (init_process "draw0") { id := "start", label := "Início", type := "start" }
      = (init_process "draw0", true) :=
  (claim_C1_start_protected_at_caller (init_process "draw0")
    { id := "start", label := "Início", type := "start" }).1 rfl

/-
Claim C2. The claim asserts that add_edge validates both endpoints and
fails with ReferenceError when one is missing. The add_edge of app.py
appends the edge with no check at all.
-/

/-- Claim C2 is false as stated: add_edge with two ids that name no node
of a fresh process succeeds and appends a dangling edge, instead of
failing with ReferenceError. -/
theorem claim_C2_counterexample :
    (add_edge (init_process "draw0") "ghost" "ghoul" none).edges.length = 1
    ∧ find_node (add_edge (init_process "draw0") "ghost" "ghoul" none) "ghost" = none
    ∧ find_node (add_edge (init_process "draw0") "ghost" "ghoul" none) "ghoul" = none := by
  decide

/-- Claim C2 as amended: add_edge performs no endpoint validation and
never fails; for every process and every pair of ids it appends exactly
one edge carrying those ids, leaving the node list untouched, so dangling
edges can be created. -/
theorem claim_C2_add_edge_unchecked (p : Process) (f t : String) (l : Option String) :
    (add_edge p f t l).nodes = p.nodes
    ∧ (add_edge p f t l).edges = p.edges ++ [{ fromId := f, toId := t, label := l }] :=
  ⟨rfl, rfl⟩

/-
Claim C4. The claim asserts that delete_nodes_after on an absent anchor
id fails with ReferenceError. The delete_nodes_after of app.py instead
returns silently when get_node_index yields None.
-/

/-- Claim C4 is false as stated: delete_nodes_after with an id naming no
node of a fresh process silently returns the process unchanged instead of
failing with ReferenceError. -/
theorem claim_C4_counterexample :
    get_node_index (init_process "draw0") "ghost" = none
    ∧ delete_nodes_after (init_process "draw0") "ghost" = init_process "draw0" := by
  decide

/-- Claim C4 as amended: when the anchor id names no node, the truncation
is a silent no-op, the missing anchor is swallowed and the process is
returned unchanged. -/
theorem claim_C4_silent_noop (p : Process) (node_id : String)
    (h : get_node_index p node_id = none) :
    delete_nodes_after p node_id = p := by
  simp [delete_nodes_after, h]

/-- Witness for the amended claim C4, on a fresh process and an unknown
anchor id. -/
theorem claim_C4_witness :
    delete_nodes_after (init_process "w4") "missing" = init_process "w4" :=
  claim_C4_silent_noop (init_process "w4") "missing" (by decide)

/-
ensure_end_node helper lemmas, shared by the theorems for claims C5 and
C10.
-/

/-- Case analysis of ensure_end_node: when an end node exists the process
and the head of the end-filtered list are returned untouched; when none
exists exactly one end node is appended and its id returned, the edge
list and the other fields untouched. -/
theorem ensure_end_node_cases (p : Process) (draw : String) :
    (∀ n rest, p.nodes.filter is_end = n :: rest →
        ensure_end_node p draw = (p, n.id))
    ∧ (p.nodes.filter is_end = [] →
        ∃ nn : Node, nn.type = "end"
          ∧ (ensure_end_node p draw).1.nodes = p.nodes ++ [nn]
          ∧ (ensure_end_node p draw).1.edges = p.edges
          ∧ (ensure_end_node p draw).1.id = p.id
          ∧ (ensure_end_node p draw).1.name = p.name
          ∧ (ensure_end_node p draw).2 = nn.id) := by
  constructor
  · intro n rest hf
    unfold ensure_end_node
    rw [hf]
  · intro hf
    cases hfind : find_node p "end" with
    | some nd =>
        refine ⟨{ id := generate_id "n" draw, label := "Fim", type := "end" },
                rfl, ?_, ?_, ?_, ?_, ?_⟩ <;>
          simp [ensure_end_node, hf, hfind, add_node]
    | none =>
        refine ⟨{ id := "end", label := "Fim", type := "end" },
                rfl, ?_, ?_, ?_, ?_, ?_⟩ <;>
          simp [ensure_end_node, hf, hfind]

/-- After any call of ensure_end_node the end-filtered node list is
nonempty and its head carries the returned id. -/
theorem ensure_end_node_post (p : Process) (draw : String) :
    ∃ n rest, (ensure_end_node p draw).1.nodes.filter is_end = n :: rest
      ∧ (ensure_end_node p draw).2 = n.id := by
  cases hf : p.nodes.filter is_end with
  | cons n rest =>
      have h := (ensure_end_node_cases p draw).1 n rest hf
      rw [h]
      exact ⟨n, rest, hf, rfl⟩
  | nil =>
      obtain ⟨nn, hend, hnodes, _, _, _, hid⟩ := (ensure_end_node_cases p draw).2 hf
      refine ⟨nn, [], ?_, hid⟩
      rw [hnodes, List.filter_append, hf]
      simp [is_end, hend]

/-- Claim C5: ensure_end_node is idempotent. A second call in succession
returns the same id as the first, changes nothing (in particular the node
count and the count of end-kind nodes stay those reached after the first
call), and when an end-kind node already exists the id returned is that
of the first end-kind node in insertion order. -/
theorem claim_C5_ensure_end_idempotent (p : Process) (d1 d2 : String) :
    ((ensure_end_node (ensure_end_node p d1).1 d2).2 = (ensure_end_node p d1).2)
    ∧ ((ensure_end_node (ensure_end_node p d1).1 d2).1 = (ensure_end_node p d1).1)
    ∧ (((ensure_end_node (ensure_end_node p d1).1 d2).1.nodes.filter is_end).length
        = ((ensure_end_node p d1).1.nodes.filter is_end).length)
    ∧ (∀ n rest, p.nodes.filter is_end = n :: rest → (ensure_end_node p d1).2 = n.id) := by
  obtain ⟨n, rest, hf, hid⟩ := ensure_end_node_post p d1
  have h2 := (ensure_end_node_cases (ensure_end_node p d1).1 d2).1 n rest hf
  refine ⟨?_, ?_, ?_, ?_⟩
  · rw [h2, hid]
  · rw [h2]
  · rw [h2]
  · intro m mrest hm
    have := (ensure_end_node_cases p d1).1 m mrest hm
    rw [this]

/-- Witness for claim C5 on a process that already holds an end node. -/
theorem claim_C5_witness :
    ((ensure_end_node (ensure_end_node pE "d1").1 "d2").2 = (ensure_end_node pE "d1").2)
    ∧ (ensure_end_node pE "d1").2 = "e1" := by
  have h := claim_C5_ensure_end_idempotent pE "d1" "d2"
  exact ⟨h.1, h.2.2.2 { id := "e1", label := "Fim", type := "end" } [] (by decide)⟩

/-- Claim C10: ensure_end_node never modifies the edge collection, never
modifies an existing node (the old node list survives as a prefix, with
at most one node appended), and the id it returns belongs to an end-kind
node present in the process after the call. -/
theorem claim_C10_ensure_end_frame (p : Process) (draw : String) :
    ((ensure_end_node p draw).1.edges = p.edges)
    ∧ ((ensure_end_node p draw).1.nodes = p.nodes
        ∨ ∃ nn, (ensure_end_node p draw).1.nodes = p.nodes ++ [nn])
    ∧ (∃ nn, nn ∈ (ensure_end_node p draw).1.nodes
        ∧ nn.id = (ensure_end_node p draw).2 ∧ nn.type = "end") := by
  cases hf : p.nodes.filter is_end with
  | cons n rest =>
      have h := (ensure_end_node_cases p draw).1 n rest hf
      have hmem : n ∈ p.nodes.filter is_end := by
        rw [hf]; exact List.mem_cons_self n rest
      have hn : n ∈ p.nodes := (List.mem_filter.mp hmem).1
      have hend : n.type = "end" := by
        have := (List.mem_filter.mp hmem).2
        simpa [is_end] using this
      rw [h]
      exact ⟨rfl, Or.inl rfl, ⟨n, hn, rfl, hend⟩⟩
  | nil =>
      obtain ⟨nn, hend, hnodes, hedges, _, _, hid⟩ := (ensure_end_node_cases p draw).2 hf
      refine ⟨hedges, Or.inr ⟨nn, hnodes⟩, ⟨nn, ?_, hid.symm, hend⟩⟩
      rw [hnodes]
      exact List.mem_append_right _ (List.mem_singleton.mpr rfl)

/-- A found node index is a valid position in the node list. -/
theorem node_index_from_lt {l : List Node} {s : String} {k : Nat}
    (h : node_index_from l s = some k) : k < l.length := by
  induction l generalizing k with
  | nil => simp [node_index_from] at h
  | cons n rest ih =>
      rw [show node_index_from (n :: rest) s
            = if n.id == s then some 0
              else Option.map (fun i => i + 1) (node_index_from rest s) from rfl] at h
      by_cases hn : (n.id == s) = true
      · rw [if_pos hn] at h
        injection h with h0
        simp only [List.length_cons]
        omega
      · rw [if_neg hn] at h
        cases hrest : node_index_from rest s with
        | none =>
            rw [hrest] at h
            simp at h
        | some i =>
            rw [hrest] at h
            simp at h
            have := ih hrest
            simp only [List.length_cons]
            omega

/-- Claim C3: with the anchor node found at position k, delete_nodes_after
keeps exactly the nodes at positions up to k, each unchanged in place,
and keeps exactly the edges neither end of which carries the id of a
removed node; with the anchor at the last position the process is
returned whole. -/
theorem claim_C3_truncate_after (p : Process) (node_id : String) (k : Nat)
    (h : get_node_index p node_id = some k) :
    ((delete_nodes_after p node_id).nodes = p.nodes.take (k + 1))
    ∧ ((delete_nodes_after p node_id).nodes.length = k + 1)
    ∧ (∀ i, i ≤ k → (delete_nodes_after p node_id).nodes[i]? = p.nodes[i]?)
    ∧ ((delete_nodes_after p node_id).edges = p.edges.filter
        (fun e => !(((p.nodes.drop (k + 1)).map Node.id).contains e.fromId)
               && !(((p.nodes.drop (k + 1)).map Node.id).contains e.toId)))
    ∧ (k + 1 = p.nodes.length → delete_nodes_after p node_id = p)
    := by
  have hk : k < p.nodes.length := node_index_from_lt h
  have hnodes : (delete_nodes_after p node_id).nodes = p.nodes.take (k + 1) := by
    simp [delete_nodes_after, h]
  have hedges : (delete_nodes_after p node_id).edges = p.edges.filter
      (fun e => !(((p.nodes.drop (k + 1)).map Node.id).contains e.fromId)
             && !(((p.nodes.drop (k + 1)).map Node.id).contains e.toId)) := by
    simp [delete_nodes_after, h]
  refine ⟨hnodes, ?_, ?_, hedges, ?_⟩
  · rw [hnodes, List.length_take]
    omega
  · intro i hi
    rw [hnodes]
    rw [List.getElem?_take_of_lt]
    omega
  · intro hlast
    have htake : p.nodes.take (k + 1) = p.nodes := by
      rw [hlast]
      simp
    have hdrop : p.nodes.drop (k + 1) = [] := by
      rw [hlast]
      simp
    have hdrop2 : (p.nodes.map Node.id).drop (k + 1) = [] := by
      have : (p.nodes.map Node.id).length = p.nodes.length := List.length_map _ _
      rw [hlast]
      simp
    simp [delete_nodes_after, h, htake, hdrop, hdrop2]

/-- Witness for claim C3 on a three-node process truncated after its
middle node. -/
theorem claim_C3_witness :
    ((delete_nodes_after pW3 "a").nodes = pW3.nodes.take 2)
    ∧ ((delete_nodes_after pW3 "a").nodes.length = 2)
    ∧ ((delete_nodes_after pW3 "a").nodes[1]? = pW3.nodes[1]?)
    ∧ ((delete_nodes_after pW3 "a").edges = pW3.edges.filter
        (fun e => !(((pW3.nodes.drop 2).map Node.id).contains e.fromId)
               && !(((pW3.nodes.drop 2).map Node.id).contains e.toId))) := by
  have h := claim_C3_truncate_after pW3 "a" 1 (by decide)
  exact ⟨h.1, h.2.1, h.2.2.1 1 (Nat.le_refl 1), h.2.2.2.1⟩

/-
Document codec round trip, claim C6.
-/

/-- A node dict encodes and decodes back to itself. -/
theorem json_to_node_round (n : Node) : json_to_node (node_to_json n) = some n := rfl

/-- An edge dict encodes and decodes back to itself, whether or not the
label is present. -/
theorem json_to_edge_round (e : Edge) : json_to_edge (edge_to_json e) = some e := by
  obtain ⟨f, t, l⟩ := e
  cases l <;> rfl

/-- The encoded node array decodes elementwise back to the node list. -/
theorem decode_nodes_round (ns : List Node) :
    decode_list json_to_node (ns.map node_to_json) = some ns := by
  induction ns with
  | nil => rfl
  | cons n rest ih =>
      simp [decode_list, json_to_node_round, ih]

/-- The encoded edge array decodes elementwise back to the edge list. -/
theorem decode_edges_round (es : List Edge) :
    decode_list json_to_edge (es.map edge_to_json) = some es := by
  induction es with
  | nil => rfl
  | cons e rest ih =>
      simp [decode_list, json_to_edge_round, ih]

/-- Reading back a serialized process reduces to decoding its two encoded
arrays; the surrounding key lookups all compute. -/
theorem parse_process_serialize (i nm : String) (ns : List Node) (es : List Edge) :
    parse_process (serialize { id := i, name := nm, nodes := ns, edges := es })
      = match decode_list json_to_node (ns.map node_to_json),
              decode_list json_to_edge (es.map edge_to_json) with
        | some ns2, some es2 => some { id := i, name := nm, nodes := ns2, edges := es2 }
        | _, _ => none := rfl

/-- Claim C6, the round-trip law: a serialized process passes the upload
schema check whole, and reading the document back yields a process whose
name, node list (ids, labels, kinds, order) and edge list (from, to,
label, membership and order) are identical to the original. -/
theorem claim_C6_round_trip (current : Json) (p : Process) :
    apply_upload current (serialize p) = (serialize p, none)
    ∧ parse_process (serialize p) = some p := by
  constructor
  · rfl
  · obtain ⟨i, nm, ns, es⟩ := p
    rw [parse_process_serialize, decode_nodes_round, decode_edges_round]

/-
Claim C7. The claim asserts that every document whose top level is not a
mapping holding both a nodes key and an edges key is rejected with
MalformedDocument, the loaded process staying untouched. The check the
code runs is the Python membership test, which a non-mapping can pass: a
top-level array holding the two strings is adopted as the new process.
-/

/-- Claim C7 is false as stated: the top-level array holding the strings
nodes and edges is not a mapping, yet the upload handler adopts it as the
new process with no error. -/
theorem claim_C7_counterexample :
    apply_upload (serialize (init_process "draw0")) (Json.arr [Json.str "nodes", Json.str "edges"])
      = (Json.arr [Json.str "nodes", Json.str "edges"], none) := rfl

/-- Claim C7 as amended: the upload handler replaces the process only
when the Python membership check passes, and any failing or erroring
check leaves the current process untouched; restricted to top-level
mappings the claim is exact, the check passing precisely when both the
nodes key and the edges key are present. -/
theorem claim_C7_amended (current content : Json) :
    (∀ err, (apply_upload current content).2 = some err
        → (apply_upload current content).1 = current)
    ∧ ((apply_upload current content).2 = none
        → (apply_upload current content).1 = content)
    ∧ (∀ kvs, content = Json.obj kvs →
        ((apply_upload current content).2 = none
          ↔ (kvs.any (fun kv => kv.fst == "nodes") = true
             ∧ kvs.any (fun kv => kv.fst == "edges") = true))) := by
  refine ⟨?_, ?_, ?_⟩
  · intro err
    unfold apply_upload
    cases py_schema_check content with
    | error e => intro _; rfl
    | ok b =>
        cases b with
        | true => intro hc; exact absurd hc (by simp)
        | false => intro _; rfl
  · unfold apply_upload
    cases py_schema_check content with
    | error e => intro hc; exact absurd hc (by simp)
    | ok b =>
        cases b with
        | true => intro _; rfl
        | false => intro hc; exact absurd hc (by simp)
  · intro kvs hk
    subst hk
    unfold apply_upload py_schema_check json_has_member
    cases h1 : kvs.any (fun kv => kv.fst == "nodes") with
    | false => simp [h1]
    | true =>
        cases h2 : kvs.any (fun kv => kv.fst == "edges") with
        | false => simp [h1, h2]
        | true => simp [h1, h2]

/-- Witness for the amended claim C7: a number document raises the
membership TypeError and keeps the current process; a mapping document
with both keys passes the check. -/
theorem claim_C7_witness :
    (apply_upload (Json.str "cur") (Json.num 3)).1 = Json.str "cur"
    ∧ (apply_upload (Json.str "cur")
        (Json.obj [("nodes", Json.arr []), ("edges", Json.arr [])])).2 = none := by
  have h1 := claim_C7_amended (Json.str "cur") (Json.num 3)
  have h2 := claim_C7_amended (Json.str "cur")
    (Json.obj [("nodes", Json.arr []), ("edges", Json.arr [])])
  exact ⟨h1.1 LoadError.readError rfl, (h2.2.2 _ rfl).mpr (by decide)⟩

/-
Diagram projector, claims C8 and C9.
-/

/-- The if/elif chain of generate_mermaid renders each node exactly as
the specification table does. -/
theorem node_line_eq_spec (n : Node) : node_line n = spec_node_line n := by
  unfold node_line spec_node_line
  by_cases h1 : n.type = "start"
  · simp [h1]
  · by_cases h2 : n.type = "end"
    · simp [h1, h2]
    · by_cases h3 : n.type = "task"
      · simp [h1, h2, h3]
      · by_cases h4 : n.type = "decision"
        · simp [h1, h2, h3, h4]
        · simp [h1, h2, h3, h4]

/-- The truthiness test of generate_mermaid renders each edge exactly as
the specification arrow rule does. -/
theorem edge_line_eq_spec (e : Edge) : edge_line e = spec_edge_line e := by
  obtain ⟨f, t, l⟩ := e
  cases l with
  | none => rfl
  | some s =>
      by_cases hs : s = ""
      · simp [edge_line, spec_edge_line, label_truthy, hs]
      · simp [edge_line, spec_edge_line, label_truthy, hs]

/-- Claim C8: generate_mermaid emits the directive line, then one line
per node shaped by kind (start and end rounded, task rectangular,
decision rhombus, unknown kinds falling back to rectangular without
failing) with every newline of the label replaced by a space, then one
line per edge in plain or labeled arrow form, node lines and edge lines
following the insertion order of the underlying sequences. -/
theorem claim_C8_projection (p : Process) :
    generate_mermaid p
      = String.intercalate "\n"
          ("flowchart TD" :: (p.nodes.map spec_node_line ++ p.edges.map spec_edge_line)) := by
  have hn : node_line = spec_node_line := funext node_line_eq_spec
  have he : edge_line = spec_edge_line := funext edge_line_eq_spec
  unfold generate_mermaid
  rw [hn, he]

/-- Claim C9: the labeled arrow form is selected by truthiness of the
label value, not by its presence: an edge whose label is the empty string
is emitted in the plain form, exactly like a missing label, and only a
nonempty label string produces the labeled form. -/
theorem claim_C9_label_truthiness (e : Edge) :
    (e.label = none → edge_line e = "    " ++ e.fromId ++ " --> " ++ e.toId)
    ∧ (e.label = some "" → edge_line e = "    " ++ e.fromId ++ " --> " ++ e.toId)
    ∧ (∀ s, e.label = some s → s ≠ "" →
        edge_line e = "    " ++ e.fromId ++ " -->|" ++ s ++ "| " ++ e.toId) := by
  refine ⟨?_, ?_, ?_⟩
  · intro h
    simp [edge_line, label_truthy, h]
  · intro h
    simp [edge_line, label_truthy, h]
  · intro s h hs
    simp [edge_line, label_truthy, h, hs]

/-- Witness for claim C9 on three concrete edges: empty label, missing
label, nonempty label. -/
theorem claim_C9_witness :
    edge_line { fromId := "a", toId := "b", label := some "" } = "    a --> b"
    ∧ edge_line { fromId := "a", toId := "b", label := none } = "    a --> b"
    ∧ edge_line { fromId := "a", toId := "b", label := some "Sim" } = "    a -->|Sim| b" := by
  refine ⟨?_, ?_, ?_⟩
  · exact (claim_C9_label_truthiness { fromId := "a", toId := "b", label := some "" }).2.1 rfl
  · exact (claim_C9_label_truthiness { fromId := "a", toId := "b", label := none }).1 rfl
  · exact (claim_C9_label_truthiness { fromId := "a", toId := "b", label := some "Sim" }).2.2
      "Sim" rfl (by decide)

end Processos
